import Mathlib

/-!
Shallow embedding of `src/generate_project_data.py` (the whole repository is
this one script).  The script draws from two pseudo-random sources — Python's
`random` module and `np.random` — both seeded once at module import.  We model
each source as an explicit stream `ℕ → ℚ` of the values produced by its
successive distribution calls, together with a cursor that advances by one for
every call; the distribution parameters of each `np.random` call are recorded
in a trace so that statements about which draws occur can be made.  Rational
numbers stand for Python floats (every IEEE double is a rational), real numbers
are used for the logistic transform `1 / (1 + exp ((risk - 5) / 2))`.
-/

/-- Python's `round` (banker's rounding, round-half-to-even) on a rational,
returning an integer. -/
def rhe (q : ℚ) : ℤ :=
  if q - ⌊q⌋ < 1/2 then ⌊q⌋
  else if 1/2 < q - ⌊q⌋ then ⌊q⌋ + 1
  else if ⌊q⌋ % 2 = 0 then ⌊q⌋ else ⌊q⌋ + 1

/-- Python's `round(x, 1)`: round to one decimal digit (half-to-even). -/
def round1 (q : ℚ) : ℚ := ((rhe (q * 10) : ℤ) : ℚ) / 10

/-- Python's `round(x, 2)`: round to two decimal digits (half-to-even). -/
def round2 (q : ℚ) : ℚ := ((rhe (q * 100) : ℤ) : ℚ) / 100

/-- Python's `int()` conversion on a float: truncation toward zero. -/
def pyInt (q : ℚ) : ℤ := if 0 ≤ q then ⌊q⌋ else ⌈q⌉

/-- Model of `random.choice`: select an element of the list from one draw of
the `random` stream. -/
def pyChoice (l : List String) (u : ℚ) : String :=
  List.getD l (⌊u * (l.length : ℚ)⌋).toNat default

/-- The five project type labels of the source. -/
def projectTypes : List String :=
  ["Software Development", "Infrastructure", "Business Process",
   "Product Launch", "System Integration"]

/-- The five industry labels of the source. -/
def industries : List String :=
  ["Technology", "Finance", "Healthcare", "Retail", "Manufacturing"]

/-- Decimal digit to its ASCII character. -/
def digitChar (d : ℕ) : Char := Char.ofNat (48 + d)

/-- ASCII digit character back to its value. -/
def charDigit (c : Char) : ℕ := c.toNat - 48

/-- Little-endian decimal digits with explicit fuel (structural recursion so
that the kernel can evaluate it). -/
def digitsAux : ℕ → ℕ → List ℕ
  | 0, _ => []
  | fuel + 1, k => if k = 0 then [] else k % 10 :: digitsAux fuel (k / 10)

/-- Little-endian decimal digits of a natural number. -/
def natDigits (k : ℕ) : List ℕ := digitsAux k k

/-- Decimal representation of `k` as a character list (most significant
first). -/
def natChars (k : ℕ) : List Char := ((natDigits k).map digitChar).reverse

/-- Decimal representation zero-padded to a minimum width of four characters,
as Python's `f'{k:04d}'`. -/
def padChars (k : ℕ) : List Char :=
  List.replicate (4 - (natChars k).length) '0' ++ natChars k

/-- The `project_id` string of the source: `f'PRJ_{k:04d}'` for the 1-based
sequence position `k`. -/
def projectId (k : ℕ) : String :=
  String.mk (['P', 'R', 'J', '_'] ++ padChars k)

/-- Decode the numeric part of a `project_id` string. -/
def idNum (id : String) : ℕ :=
  Nat.ofDigits 10 (((id.data.drop 4).map charDigit).reverse)

/-- One distribution call of the `np.random` source, with its parameters. -/
inductive DistCall where
  | lognormal (mu sigma : ℚ)
  | gammaDist (shape scale : ℚ)
  | betaDist (a b : ℚ)
  | uniform (lo hi : ℚ)
  | poisson (lam : ℚ)
  | normal (mu sigma : ℚ)
deriving DecidableEq

/-- Distribution family of a call, forgetting the parameters. -/
def distFamily : DistCall → ℕ
  | .lognormal _ _ => 0
  | .gammaDist _ _ => 1
  | .betaDist _ _ => 2
  | .uniform _ _ => 3
  | .poisson _ => 4
  | .normal _ _ => 5

/-- The ten `np.random` calls every record makes before the outcome branch, in
source order: budget, team size, planned duration, the five risk factors and
the two Poisson counts. -/
def fixedTrace : List DistCall :=
  [.lognormal 5 1, .lognormal 2 0.8, .gammaDist 3 2, .betaDist 5 2,
   .betaDist 4 2, .betaDist 5 3, .uniform 1 10, .betaDist 5 2,
   .poisson 3, .poisson 2]

/-- The three `np.random` calls of the `if success:` arm. -/
def successCalls : List DistCall :=
  [.normal 0 2, .normal 0 15, .betaDist 8 2]

/-- The three `np.random` calls of the `else:` (failure) arm. -/
def failureCalls : List DistCall :=
  [.normal 5 3, .normal 25 15, .betaDist 3 5]

/-- The composite risk score of the source (lines 59–67), verbatim. -/
def riskScore (sc st re tc te : ℚ) (cr dep : ℤ) : ℚ :=
  (10 - sc) * 0.2 +
  (10 - st) * 0.15 +
  (10 - re) * 0.2 +
  tc * 0.15 +
  (10 - te) * 0.15 +
  ((cr : ℚ) / 10) * 0.1 +
  ((dep : ℚ) / 10) * 0.05

/-- The logistic success probability of the source:
`1 / (1 + np.exp((risk_score - 5) / 2))`. -/
noncomputable def succProb (x : ℝ) : ℝ := 1 / (1 + Real.exp ((x - 5) / 2))

/-- The Bernoulli outcome of the source:
`success = 1 if random.random() < success_probability else 0`. -/
noncomputable def succFlag (u r : ℚ) : ℕ :=
  if (u : ℝ) < succProb (r : ℝ) then 1 else 0

/-- One generated project record, the 17 fields of the source's dict. -/
structure Record where
  project_id : String
  project_type : String
  industry : String
  budget_thousands : ℚ
  team_size : ℤ
  planned_duration_months : ℤ
  actual_duration_months : ℤ
  scope_clarity_score : ℚ
  stakeholder_engagement : ℚ
  resource_availability : ℚ
  technical_complexity : ℚ
  team_experience_level : ℚ
  change_requests : ℤ
  external_dependencies : ℤ
  budget_variance_percent : ℚ
  quality_score : ℚ
  success : ℕ

/-- A Python value appearing in the record dict. -/
inductive PyVal where
  | str (v : String)
  | rat (v : ℚ)
  | int (v : ℤ)
  | nat (v : ℕ)
deriving DecidableEq

/-- The record as the source's dict literal: keys in source order with their
values. -/
def Record.toRow (r : Record) : List (String × PyVal) :=
  [("project_id", .str r.project_id),
   ("project_type", .str r.project_type),
   ("industry", .str r.industry),
   ("budget_thousands", .rat r.budget_thousands),
   ("team_size", .int r.team_size),
   ("planned_duration_months", .int r.planned_duration_months),
   ("actual_duration_months", .int r.actual_duration_months),
   ("scope_clarity_score", .rat r.scope_clarity_score),
   ("stakeholder_engagement", .rat r.stakeholder_engagement),
   ("resource_availability", .rat r.resource_availability),
   ("technical_complexity", .rat r.technical_complexity),
   ("team_experience_level", .rat r.team_experience_level),
   ("change_requests", .int r.change_requests),
   ("external_dependencies", .int r.external_dependencies),
   ("budget_variance_percent", .rat r.budget_variance_percent),
   ("quality_score", .rat r.quality_score),
   ("success", .nat r.success)]

/-- The 17 field names, in the source dict's order. -/
def fieldNames : List String :=
  ["project_id", "project_type", "industry", "budget_thousands", "team_size",
   "planned_duration_months", "actual_duration_months", "scope_clarity_score",
   "stakeholder_engagement", "resource_availability", "technical_complexity",
   "team_experience_level", "change_requests", "external_dependencies",
   "budget_variance_percent", "quality_score", "success"]

/-- The risk score of a record whose factor draws start at `np` in the
`np.random` stream `s`. -/
def riskOf (s : ℕ → ℚ) (np : ℕ) : ℚ :=
  riskScore (round1 (s (np + 3) * 10)) (round1 (s (np + 4) * 10))
    (round1 (s (np + 5) * 10)) (round1 (s (np + 6)))
    (round1 (s (np + 7) * 10)) (pyInt (s (np + 8))) (pyInt (s (np + 9)))

/-- The loop body of `generate_project_data` for index `i`: consume draws from
the `np.random` stream `s` (cursor `np`) and the `random` stream `t` (cursor
`py`) in source order and build the record.  Returns the record, the two
advanced cursors and the trace of `np.random` calls made.  Both arms of the
source's `if success:` branch apply the same conversions (`int`, `round(·,1)`,
`round(·,1)` on a scaled beta) to the three draws they consume at the same
stream positions; the arms differ only in the distribution parameters of those
draws, which the trace records. -/
noncomputable def mkRecord (s t : ℕ → ℚ) (i np py : ℕ) :
    Record × ℕ × ℕ × List DistCall :=
  let ptype := pyChoice projectTypes (t py)
  let ind := pyChoice industries (t (py + 1))
  let budget0 := round2 (s np * 10)
  let budget := max 50 (min budget0 5000)
  let team0 := pyInt (s (np + 1))
  let team_size := max 3 (min team0 50)
  let planned0 := pyInt (s (np + 2))
  let planned := max 1 (min planned0 24)
  let scope := round1 (s (np + 3) * 10)
  let stakeholder := round1 (s (np + 4) * 10)
  let resource := round1 (s (np + 5) * 10)
  let technical := round1 (s (np + 6))
  let experience := round1 (s (np + 7) * 10)
  let change_requests := pyInt (s (np + 8))
  let deps := pyInt (s (np + 9))
  let risk := riskScore scope stakeholder resource technical experience
    change_requests deps
  let success := succFlag (t (py + 2)) risk
  let actual0 := planned + pyInt (s (np + 10))
  let variance := round1 (s (np + 11))
  let quality := round1 (s (np + 12) * 100)
  let branchTrace := if success = 1 then successCalls else failureCalls
  let actual := max 1 actual0
  (⟨projectId (i + 1), ptype, ind, budget, team_size, planned, actual,
    scope, stakeholder, resource, technical, experience, change_requests,
    deps, variance, quality, success⟩,
   np + 13, py + 3, fixedTrace ++ branchTrace)

/-- The generation loop: `k` remaining iterations, next index `i`, stream
cursors `np` and `py`.  Returns the record list and the final cursors. -/
noncomputable def genAux (s t : ℕ → ℚ) : ℕ → ℕ → ℕ → ℕ → List Record × ℕ × ℕ
  | 0, _, np, py => ([], np, py)
  | k + 1, i, np, py =>
    let rec1 := mkRecord s t i np py
    let rest := genAux s t k (i + 1) rec1.2.1 rec1.2.2.1
    (rec1.1 :: rest.1, rest.2.1, rest.2.2)

/-- `generate_project_data(n_projects)` on freshly seeded sources: iterate the
loop body `n` times (`range(n)` is empty for `n ≤ 0`) from cursor 0 of both
streams. -/
noncomputable def generateProjectData (s t : ℕ → ℚ) (n : ℤ) : List Record :=
  (genAux s t n.toNat 0 0 0).1

/-- Two successive calls of `generate_project_data` in one process: the module
seeds both sources once at import, so the second call continues from the
cursors the first call left behind. -/
noncomputable def moduleRun (s t : ℕ → ℚ) (n : ℤ) : List Record × List Record :=
  let c1 := genAux s t n.toNat 0 0 0
  let c2 := genAux s t n.toNat 0 c1.2.1 c1.2.2
  (c1.1, c2.1)

/-- The range constraints claim C1 states for a record. -/
def InRanges (r : Record) : Prop :=
  (50 ≤ r.budget_thousands ∧ r.budget_thousands ≤ 5000) ∧
  (3 ≤ r.team_size ∧ r.team_size ≤ 50) ∧
  (1 ≤ r.planned_duration_months ∧ r.planned_duration_months ≤ 24) ∧
  1 ≤ r.actual_duration_months ∧
  (r.success = 0 ∨ r.success = 1) ∧
  (0 ≤ r.quality_score ∧ r.quality_score ≤ 100)

/-- Claim C9 as the spec states it: per record, the draws of both the success
and the failure parameterizations occur regardless of the realized Bernoulli
outcome. -/
def bothBranchesDrawn : Prop :=
  ∀ (s t : ℕ → ℚ) (i np py : ℕ),
    DistCall.normal 0 2 ∈ (mkRecord s t i np py).2.2.2 ∧
    DistCall.normal 5 3 ∈ (mkRecord s t i np py).2.2.2

/-- Claim C4 as the spec states it: the outcome-dependent duration noise is
rounded to the nearest integer before being added to the planned duration,
then floored at 1. -/
def durationNoiseRounded : Prop :=
  ∀ (s t : ℕ → ℚ) (i np py : ℕ),
    ((mkRecord s t i np py).1.success = 1 →
      (mkRecord s t i np py).1.actual_duration_months =
        max 1 ((mkRecord s t i np py).1.planned_duration_months +
          round (s (np + 10)))) ∧
    ((mkRecord s t i np py).1.success = 0 →
      (mkRecord s t i np py).1.actual_duration_months =
        max 1 ((mkRecord s t i np py).1.planned_duration_months +
          round (s (np + 10))))

/-! ### Rounding helpers -/

theorem rhe_nonneg {q : ℚ} (h : 0 ≤ q) : 0 ≤ rhe q := by
  have hn : 0 ≤ ⌊q⌋ := Int.floor_nonneg.mpr h
  unfold rhe
  split_ifs <;> omega

theorem rhe_le_int {q : ℚ} {m : ℤ} (h : q ≤ (m : ℚ)) : rhe q ≤ m := by
  have hfl : ⌊q⌋ ≤ m := by
    have := Int.floor_le_floor h
    rwa [Int.floor_intCast] at this
  unfold rhe
  split_ifs with h1 h2 h3
  · exact hfl
  · have hq : (⌊q⌋ : ℚ) + 1/2 ≤ q := by linarith
    have : (⌊q⌋ : ℚ) < (m : ℚ) := by linarith
    have : ⌊q⌋ < m := by exact_mod_cast this
    omega
  · exact hfl
  · have h2' : q - (⌊q⌋ : ℚ) = 1/2 := le_antisymm (not_lt.mp h2) (not_lt.mp h1)
    have hq : (⌊q⌋ : ℚ) + 1/2 ≤ q := by linarith
    have : (⌊q⌋ : ℚ) < (m : ℚ) := by linarith
    have : ⌊q⌋ < m := by exact_mod_cast this
    omega

theorem round1_nonneg {q : ℚ} (h : 0 ≤ q) : 0 ≤ round1 q := by
  unfold round1
  have : (0 : ℤ) ≤ rhe (q * 10) := rhe_nonneg (by linarith)
  positivity

theorem round1_le_hundred {q : ℚ} (h : q ≤ 100) : round1 q ≤ 100 := by
  unfold round1
  have h10 : q * 10 ≤ ((1000 : ℤ) : ℚ) := by push_cast; linarith
  have := rhe_le_int h10
  have : ((rhe (q * 10) : ℤ) : ℚ) ≤ 1000 := by exact_mod_cast this
  linarith

/-! ### The logistic transform and the Bernoulli outcome -/

theorem succProb_pos (x : ℝ) : 0 < succProb x := by
  unfold succProb
  positivity

theorem succProb_lt_one (x : ℝ) : succProb x < 1 := by
  unfold succProb
  rw [div_lt_one (by positivity)]
  have := Real.exp_pos ((x - 5) / 2)
  linarith

theorem succProb_strictAnti : StrictAnti succProb := by
  intro a b hab
  unfold succProb
  have ha : (0 : ℝ) < 1 + Real.exp ((a - 5) / 2) := by positivity
  have : Real.exp ((a - 5) / 2) < Real.exp ((b - 5) / 2) :=
    Real.exp_lt_exp.mpr (by linarith)
  exact one_div_lt_one_div_of_lt ha (by linarith)

theorem succFlag_of_nonpos (r : ℚ) {u : ℚ} (h : u ≤ 0) : succFlag u r = 1 := by
  unfold succFlag
  rw [if_pos]
  calc (u : ℝ) ≤ 0 := by exact_mod_cast h
    _ < succProb (r : ℝ) := succProb_pos _

theorem succFlag_of_one_le (r : ℚ) {u : ℚ} (h : 1 ≤ u) : succFlag u r = 0 := by
  unfold succFlag
  rw [if_neg]
  have h1 : succProb (r : ℝ) < 1 := succProb_lt_one _
  have h2 : (1 : ℝ) ≤ (u : ℝ) := by exact_mod_cast h
  exact not_lt.mpr (le_of_lt (lt_of_lt_of_le h1 h2))

theorem succFlag_eq_zero_or_one (u r : ℚ) :
    succFlag u r = 0 ∨ succFlag u r = 1 := by
  unfold succFlag
  split_ifs <;> simp

/-! ### Projections of the loop body -/

theorem mkRecord_success_eq (s t : ℕ → ℚ) (i np py : ℕ) :
    (mkRecord s t i np py).1.success = succFlag (t (py + 2)) (riskOf s np) :=
  rfl

theorem mkRecord_trace_eq (s t : ℕ → ℚ) (i np py : ℕ) :
    (mkRecord s t i np py).2.2.2 =
      fixedTrace ++
        (if succFlag (t (py + 2)) (riskOf s np) = 1
         then successCalls else failureCalls) :=
  rfl

theorem mkRecord_id_eq (s t : ℕ → ℚ) (i np py : ℕ) :
    (mkRecord s t i np py).1.project_id = projectId (i + 1) :=
  rfl

theorem mkRecord_cursors (s t : ℕ → ℚ) (i np py : ℕ) :
    (mkRecord s t i np py).2.1 = np + 13 ∧
      (mkRecord s t i np py).2.2.1 = py + 3 :=
  ⟨rfl, rfl⟩

theorem mkRecord_budget_eq (s t : ℕ → ℚ) (i np py : ℕ) :
    (mkRecord s t i np py).1.budget_thousands =
      max 50 (min (round2 (s np * 10)) 5000) :=
  rfl

theorem mkRecord_planned_eq (s t : ℕ → ℚ) (i np py : ℕ) :
    (mkRecord s t i np py).1.planned_duration_months =
      max 1 (min (pyInt (s (np + 2))) 24) :=
  rfl

theorem mkRecord_actual_eq (s t : ℕ → ℚ) (i np py : ℕ) :
    (mkRecord s t i np py).1.actual_duration_months =
      max 1 (max 1 (min (pyInt (s (np + 2))) 24) + pyInt (s (np + 10))) :=
  rfl

/-! ### The generation loop -/

theorem genAux_length (s t : ℕ → ℚ) :
    ∀ (k i np py : ℕ), (genAux s t k i np py).1.length = k := by
  intro k
  induction k with
  | zero => intro i np py; rfl
  | succ k ih =>
    intro i np py
    simp only [genAux, List.length_cons, ih]

theorem genAux_cursors (s t : ℕ → ℚ) :
    ∀ (k i np py : ℕ),
      (genAux s t k i np py).2.1 = np + 13 * k ∧
        (genAux s t k i np py).2.2 = py + 3 * k := by
  intro k
  induction k with
  | zero => intro i np py; constructor <;> simp [genAux]
  | succ k ih =>
    intro i np py
    have h1 := (ih (i + 1) (np + 13) (py + 3)).1
    have h2 := (ih (i + 1) (np + 13) (py + 3)).2
    constructor
    · show (genAux s t k (i + 1) (np + 13) (py + 3)).2.1 = np + 13 * (k + 1)
      rw [h1]; omega
    · show (genAux s t k (i + 1) (np + 13) (py + 3)).2.2 = py + 3 * (k + 1)
      rw [h2]; omega

theorem genAux_getElem? (s t : ℕ → ℚ) :
    ∀ (k j i np py : ℕ), j < k →
      (genAux s t k i np py).1[j]? =
        some (mkRecord s t (i + j) (np + 13 * j) (py + 3 * j)).1 := by
  intro k
  induction k with
  | zero => intro j i np py h; omega
  | succ k ih =>
    intro j i np py h
    match j with
    | 0 => simp [genAux]
    | j + 1 =>
      have hj : j < k := by omega
      show ((mkRecord s t i np py).1 ::
        (genAux s t k (i + 1) (np + 13) (py + 3)).1)[j + 1]? = _
      rw [List.getElem?_cons_succ, ih j (i + 1) (np + 13) (py + 3) hj,
        show i + 1 + j = i + (j + 1) by omega,
        show np + 13 + 13 * j = np + 13 * (j + 1) by omega,
        show py + 3 + 3 * j = py + 3 * (j + 1) by omega]

/-! ### Decimal digits and project ids -/

theorem ofDigits_digitsAux :
    ∀ fuel k : ℕ, k ≤ fuel → Nat.ofDigits 10 (digitsAux fuel k) = k := by
  intro fuel
  induction fuel with
  | zero =>
    intro k hk
    have hk0 : k = 0 := by omega
    subst hk0
    simp [digitsAux]
  | succ fuel ih =>
    intro k hk
    by_cases h0 : k = 0
    · simp [digitsAux, h0]
    · have hdiv : k / 10 ≤ fuel := by
        have := Nat.div_lt_self (Nat.pos_of_ne_zero h0) (by norm_num : 1 < 10)
        omega
      simp only [digitsAux, if_neg h0, Nat.ofDigits_cons, ih (k / 10) hdiv]
      omega

theorem ofDigits_natDigits (k : ℕ) : Nat.ofDigits 10 (natDigits k) = k :=
  ofDigits_digitsAux k k le_rfl

theorem digitsAux_lt_ten :
    ∀ fuel k : ℕ, ∀ d ∈ digitsAux fuel k, d < 10 := by
  intro fuel
  induction fuel with
  | zero => intro k d hd; simp [digitsAux] at hd
  | succ fuel ih =>
    intro k d hd
    by_cases h0 : k = 0
    · simp [digitsAux, h0] at hd
    · simp only [digitsAux, if_neg h0, List.mem_cons] at hd
      rcases hd with h | h
      · subst h; exact Nat.mod_lt _ (by norm_num)
      · exact ih _ _ h

theorem charDigit_digitChar : ∀ d : ℕ, d < 10 → charDigit (digitChar d) = d := by
  decide

theorem ofDigits_replicate_zero (b : ℕ) :
    ∀ m : ℕ, Nat.ofDigits b (List.replicate m 0) = 0 := by
  intro m
  induction m with
  | zero => simp
  | succ m ih => simp [List.replicate, Nat.ofDigits_cons, ih]

theorem idNum_projectId (k : ℕ) : idNum (projectId k) = k := by
  have hdata : (projectId k).data = ['P', 'R', 'J', '_'] ++ padChars k := rfl
  unfold idNum
  rw [hdata]
  have hdrop : ((['P', 'R', 'J', '_'] ++ padChars k).drop 4) = padChars k := rfl
  rw [hdrop]
  unfold padChars
  have h0 : charDigit '0' = 0 := rfl
  have hmapnat : (natChars k).map charDigit = (natDigits k).reverse := by
    unfold natChars
    rw [List.map_reverse, List.map_map]
    have hcongr : (natDigits k).map (charDigit ∘ digitChar) =
        (natDigits k).map id :=
      List.map_congr_left fun d hd =>
        charDigit_digitChar d (digitsAux_lt_ten k k d hd)
    rw [hcongr, List.map_id]
  rw [List.map_append, List.map_replicate, h0, hmapnat, List.reverse_append,
    List.reverse_reverse, List.reverse_replicate, Nat.ofDigits_append,
    ofDigits_natDigits, ofDigits_replicate_zero]
  simp

theorem projectId_injective {j k : ℕ} (h : projectId j = projectId k) : j = k := by
  have := congrArg idNum h
  rwa [idNum_projectId, idNum_projectId] at this

/-! ### Range invariants of the loop body -/

theorem mkRecord_ranges (s t : ℕ → ℚ) (i np py : ℕ)
    (hq0 : 0 ≤ s (np + 12)) (hq1 : s (np + 12) ≤ 1) :
    InRanges (mkRecord s t i np py).1 := by
  unfold InRanges
  refine ⟨⟨?_, ?_⟩, ⟨?_, ?_⟩, ⟨?_, ?_⟩, ?_, ?_, ?_, ?_⟩
  · exact le_max_left _ _
  · show max 50 (min (round2 (s np * 10)) 5000) ≤ 5000
    exact max_le (by norm_num) (min_le_right _ _)
  · exact le_max_left _ _
  · show max 3 (min (pyInt (s (np + 1))) 50) ≤ 50
    exact max_le (by norm_num) (min_le_right _ _)
  · exact le_max_left _ _
  · show max 1 (min (pyInt (s (np + 2))) 24) ≤ 24
    exact max_le (by norm_num) (min_le_right _ _)
  · exact le_max_left _ _
  · rw [mkRecord_success_eq]
    exact succFlag_eq_zero_or_one _ _
  · show 0 ≤ round1 (s (np + 12) * 100)
    exact round1_nonneg (by positivity)
  · show round1 (s (np + 12) * 100) ≤ 100
    exact round1_le_hundred (by linarith)

theorem genAux_ranges (s t : ℕ → ℚ) :
    ∀ k i np py : ℕ,
      (∀ j : ℕ, 0 ≤ s (np + (13 * j + 12)) ∧ s (np + (13 * j + 12)) ≤ 1) →
      ∀ r ∈ (genAux s t k i np py).1, InRanges r := by
  intro k
  induction k with
  | zero => intro i np py _ r hr; simp [genAux] at hr
  | succ k ih =>
    intro i np py h r hr
    rw [show (genAux s t (k + 1) i np py).1 =
        (mkRecord s t i np py).1 ::
          (genAux s t k (i + 1) (np + 13) (py + 3)).1 from rfl] at hr
    rcases List.mem_cons.mp hr with h1 | h1
    · subst h1
      have h0 := h 0
      rw [show np + (13 * 0 + 12) = np + 12 by omega] at h0
      exact mkRecord_ranges s t i np py h0.1 h0.2
    · refine ih (i + 1) (np + 13) (py + 3) ?_ r h1
      intro j
      have hj := h (j + 1)
      rwa [show np + (13 * (j + 1) + 12) = np + 13 + (13 * j + 12) by omega]
        at hj

/-- C1: for every record produced by `generate_project_data(n)` with `n ≥ 1`
(given that every quality-score beta draw lies in the beta distribution's
support `[0, 1]`), the clamped and bounded fields lie in their stated ranges:
`50 ≤ budget_thousands ≤ 5000`, `3 ≤ team_size ≤ 50`,
`1 ≤ planned_duration_months ≤ 24`, `actual_duration_months ≥ 1`,
`success ∈ {0, 1}` and `0 ≤ quality_score ≤ 100`. -/
theorem c1_field_ranges :
    ∀ (s t : ℕ → ℚ) (n : ℤ), 1 ≤ n →
      (∀ j : ℕ, 0 ≤ s (13 * j + 12) ∧ s (13 * j + 12) ≤ 1) →
      ∀ r ∈ generateProjectData s t n, InRanges r := by
  intro s t n _ h r hr
  refine genAux_ranges s t n.toNat 0 0 0 ?_ r hr
  intro j
  simpa using h j

/-- Witness for C1 at `n = 1` with constant draw streams. -/
theorem c1_field_ranges_witness :
    ((1 : ℤ) ≤ 1 ∧
      (∀ j : ℕ, 0 ≤ (fun _ : ℕ => (1 : ℚ)/2) (13 * j + 12) ∧
        (fun _ : ℕ => (1 : ℚ)/2) (13 * j + 12) ≤ 1)) ∧
    ∀ r ∈ generateProjectData (fun _ : ℕ => (1 : ℚ)/2)
      (fun _ : ℕ => (1 : ℚ)/2) 1, InRanges r :=
  ⟨⟨le_refl 1, fun j => by norm_num⟩,
    c1_field_ranges _ _ 1 (le_refl 1) (fun j => by norm_num)⟩

/-- C2: the composite risk score of the source equals the spec's weighted sum
`0.2*(10-scope) + 0.15*(10-stakeholder) + 0.2*(10-resource) + 0.15*technical
+ 0.15*(10-experience) + 0.10*(change_requests/10) +
0.05*(external_dependencies/10)`, and the seven weights sum to 1. -/
theorem c2_risk_score_formula :
    (∀ (sc st re tc te : ℚ) (cr dep : ℤ),
      riskScore sc st re tc te cr dep =
        0.2 * (10 - sc) + 0.15 * (10 - st) + 0.2 * (10 - re) + 0.15 * tc +
          0.15 * (10 - te) + 0.10 * ((cr : ℚ) / 10) +
          0.05 * ((dep : ℚ) / 10)) ∧
    (0.2 + 0.15 + 0.2 + 0.15 + 0.15 + 0.10 + 0.05 : ℚ) = 1 := by
  constructor
  · intro sc st re tc te cr dep
    unfold riskScore
    ring
  · norm_num

/-- C3: every record's success probability is the logistic transform
`1 / (1 + exp((risk - 5) / 2))`; it is strictly decreasing in the risk score
and always lies in the open interval (0, 1); `success` is a single Bernoulli
trial, one uniform draw compared against that probability, with 1 exactly when
the draw is below it. -/
theorem c3_success_probability :
    (∀ x : ℝ, succProb x = 1 / (1 + Real.exp ((x - 5) / 2))) ∧
    StrictAnti succProb ∧
    (∀ x : ℝ, 0 < succProb x ∧ succProb x < 1) ∧
    (∀ (s t : ℕ → ℚ) (i np py : ℕ),
      (mkRecord s t i np py).1.success = succFlag (t (py + 2)) (riskOf s np)) ∧
    (∀ u r : ℚ,
      (succFlag u r = 1 ↔ (u : ℝ) < succProb (r : ℝ)) ∧
      (succFlag u r = 0 ↔ ¬ (u : ℝ) < succProb (r : ℝ))) := by
  refine ⟨fun x => rfl, succProb_strictAnti,
    fun x => ⟨succProb_pos x, succProb_lt_one x⟩,
    fun s t i np py => rfl, ?_⟩
  intro u r
  unfold succFlag
  split_ifs with h <;> simp [h]

/-- C4 counterexample: with planned-duration draw 5 and duration-noise draw
1.7 (a successful record), the source computes
`actual = max 1 (5 + int(1.7)) = 6`, while rounding to the nearest integer
would give `max 1 (5 + 2) = 7`; `int()` truncates, it does not round. -/
theorem c4_duration_noise_counterexample : ¬ durationNoiseRounded := by
  intro h
  have hs : (mkRecord
      (fun k => if k = 2 then (5 : ℚ) else if k = 10 then 17/10 else 0)
      (fun _ : ℕ => (0 : ℚ)) 0 0 0).1.success = 1 := by
    rw [mkRecord_success_eq]
    exact succFlag_of_nonpos _ le_rfl
  have h1 := (h (fun k => if k = 2 then (5 : ℚ) else if k = 10 then 17/10 else 0)
    (fun _ : ℕ => (0 : ℚ)) 0 0 0).1 hs
  rw [mkRecord_actual_eq, mkRecord_planned_eq] at h1
  norm_num [pyInt, round_eq, min_def, max_def] at h1

/-- C4 amended: for every record, the outcome-dependent duration noise is
converted with Python's `int()`, i.e. truncated toward zero (floor for
nonnegative noise, ceiling for negative noise), before being added to the
planned duration; in both outcome branches the result is then floored at 1. -/
theorem c4_duration_noise_truncated :
    ∀ (s t : ℕ → ℚ) (i np py : ℕ),
      ((mkRecord s t i np py).1.success = 1 →
        (mkRecord s t i np py).1.actual_duration_months =
          max 1 ((mkRecord s t i np py).1.planned_duration_months +
            pyInt (s (np + 10)))) ∧
      ((mkRecord s t i np py).1.success = 0 →
        (mkRecord s t i np py).1.actual_duration_months =
          max 1 ((mkRecord s t i np py).1.planned_duration_months +
            pyInt (s (np + 10)))) ∧
      (∀ q : ℚ, 0 ≤ q → pyInt q = ⌊q⌋) ∧
      (∀ q : ℚ, q < 0 → pyInt q = ⌈q⌉) := by
  intro s t i np py
  exact ⟨fun _ => rfl, fun _ => rfl, fun q hq => if_pos hq,
    fun q hq => if_neg (not_le.mpr hq)⟩

/-- Witness for the amended C4 on a successful concrete record. -/
theorem c4_duration_noise_truncated_witness :
    (mkRecord (fun _ : ℕ => (0 : ℚ)) (fun _ : ℕ => (0 : ℚ)) 0 0 0).1.success
        = 1 ∧
    (mkRecord (fun _ : ℕ => (0 : ℚ)) (fun _ : ℕ => (0 : ℚ)) 0 0
        0).1.actual_duration_months =
      max 1 ((mkRecord (fun _ : ℕ => (0 : ℚ)) (fun _ : ℕ => (0 : ℚ)) 0 0
          0).1.planned_duration_months +
        pyInt ((fun _ : ℕ => (0 : ℚ)) (0 + 10))) := by
  have hs : (mkRecord (fun _ : ℕ => (0 : ℚ)) (fun _ : ℕ => (0 : ℚ)) 0 0
      0).1.success = 1 := by
    rw [mkRecord_success_eq]
    exact succFlag_of_nonpos _ le_rfl
  exact ⟨hs, (c4_duration_noise_truncated _ _ 0 0 0).1 hs⟩

/-- C5: the record at 0-based index `i` carries
`project_id = "PRJ_" ++ zero-padded (i+1)`; the id map is injective (so ids
are unique across the generated set), the encoded sequence number is strictly
increasing in generation order, and the first id is `PRJ_0001`. -/
theorem c5_project_ids :
    ∀ (s t : ℕ → ℚ) (n : ℤ) (i : ℕ), i < n.toNat →
      (∃ r : Record, (generateProjectData s t n)[i]? = some r ∧
        r.project_id = projectId (i + 1)) ∧
      (∀ j k : ℕ, projectId (j + 1) = projectId (k + 1) → j = k) ∧
      (∀ j k : ℕ, j < k →
        idNum (projectId (j + 1)) < idNum (projectId (k + 1))) ∧
      projectId 1 = "PRJ_0001" := by
  intro s t n i hi
  refine ⟨?_, ?_, ?_, ?_⟩
  · refine ⟨(mkRecord s t (0 + i) (0 + 13 * i) (0 + 3 * i)).1, ?_, ?_⟩
    · exact genAux_getElem? s t n.toNat i 0 0 0 hi
    · rw [mkRecord_id_eq]
      simp
  · intro j k h
    have := projectId_injective h
    omega
  · intro j k h
    rw [idNum_projectId, idNum_projectId]
    omega
  · decide

/-- Witness for C5 at `n = 2`, `i = 0`. -/
theorem c5_project_ids_witness :
    0 < (2 : ℤ).toNat ∧
    ((∃ r : Record,
        (generateProjectData (fun _ : ℕ => (0 : ℚ)) (fun _ : ℕ => (0 : ℚ))
          2)[0]? = some r ∧ r.project_id = projectId (0 + 1)) ∧
      (∀ j k : ℕ, projectId (j + 1) = projectId (k + 1) → j = k) ∧
      (∀ j k : ℕ, j < k →
        idNum (projectId (j + 1)) < idNum (projectId (k + 1))) ∧
      projectId 1 = "PRJ_0001") :=
  ⟨by decide, c5_project_ids _ _ 2 0 (by decide)⟩

/-- C6: for every `n ≥ 1` the generator returns exactly `n` records, and each
record's row has exactly the 17 named fields of the data model, in order, and
no others. -/
theorem c6_record_shape :
    ∀ (s t : ℕ → ℚ) (n : ℤ), 1 ≤ n →
      ((generateProjectData s t n).length : ℤ) = n ∧
      (∀ r ∈ generateProjectData s t n,
        (Record.toRow r).map Prod.fst = fieldNames) ∧
      fieldNames.length = 17 := by
  intro s t n hn
  refine ⟨?_, fun r _ => rfl, rfl⟩
  unfold generateProjectData
  rw [genAux_length]
  omega

/-- Witness for C6 at `n_projects = 500`. -/
theorem c6_record_shape_witness :
    (1 : ℤ) ≤ 500 ∧
    (((generateProjectData (fun _ : ℕ => (0 : ℚ)) (fun _ : ℕ => (0 : ℚ))
          500).length : ℤ) = 500 ∧
      (∀ r ∈ generateProjectData (fun _ : ℕ => (0 : ℚ))
          (fun _ : ℕ => (0 : ℚ)) 500,
        (Record.toRow r).map Prod.fst = fieldNames) ∧
      fieldNames.length = 17) :=
  ⟨by norm_num, c6_record_shape _ _ 500 (by norm_num)⟩

/-- C7 counterexample: called with record count 0 (and likewise any `n ≤ 0`),
`generate_project_data` is not rejected with an error — the loop over
`range(n_projects)` is empty and the call silently returns the empty record
sequence. -/
theorem c7_nonpositive_counterexample :
    generateProjectData (fun _ : ℕ => (0 : ℚ)) (fun _ : ℕ => (0 : ℚ)) 0 = []
    := rfl

/-- C7 amended: for every record count `n ≤ 0` the call silently returns the
empty record sequence; no error is raised. -/
theorem c7_nonpositive_empty :
    ∀ (s t : ℕ → ℚ) (n : ℤ), n ≤ 0 → generateProjectData s t n = [] := by
  intro s t n hn
  unfold generateProjectData
  rw [show n.toNat = 0 by omega]
  rfl

/-- Witness for the amended C7 at `n = -1`. -/
theorem c7_nonpositive_empty_witness :
    (-1 : ℤ) ≤ 0 ∧
    generateProjectData (fun _ : ℕ => (0 : ℚ)) (fun _ : ℕ => (0 : ℚ)) (-1)
      = [] :=
  ⟨by norm_num, c7_nonpositive_empty _ _ (-1) (by norm_num)⟩

/-- C8: with each run starting from the freshly seeded pseudo-random sources,
generation is a deterministic function of the streams and the record count —
two independent runs with the same `n_projects` produce identical output
tables. -/
theorem c8_run_determinism :
    ∀ (s t : ℕ → ℚ) (n : ℤ) (r1 r2 : List Record),
      r1 = generateProjectData s t n → r2 = generateProjectData s t n →
      r1 = r2 := by
  intro s t n r1 r2 h1 h2
  rw [h1, h2]

/-- Witness for C8 at `n = 3`. -/
theorem c8_run_determinism_witness :
    generateProjectData (fun _ : ℕ => (0 : ℚ)) (fun _ : ℕ => (0 : ℚ)) 3 =
      generateProjectData (fun _ : ℕ => (0 : ℚ)) (fun _ : ℕ => (0 : ℚ)) 3 :=
  c8_run_determinism (fun _ : ℕ => (0 : ℚ)) (fun _ : ℕ => (0 : ℚ)) 3 _ _
    rfl rfl

/-- C9 counterexample: on a record realized as a success (uniform draw 0),
the trace of the loop body contains no `Normal(5, 3)` call — the failure
parameterization is not drawn, so the draws of both parameterizations do not
occur unconditionally. -/
theorem c9_both_branches_counterexample : ¬ bothBranchesDrawn := by
  intro h
  have h2 := (h (fun _ : ℕ => (0 : ℚ)) (fun _ : ℕ => (0 : ℚ)) 0 0 0).2
  rw [mkRecord_trace_eq] at h2
  have hflag : succFlag ((fun _ : ℕ => (0 : ℚ)) (0 + 2))
      (riskOf (fun _ : ℕ => (0 : ℚ)) 0) = 1 :=
    succFlag_of_nonpos _ le_rfl
  rw [hflag] at h2
  simp only [if_pos rfl] at h2
  exact absurd h2 (by decide)

/-- C9 amended: per record, the loop body consumes exactly 13 `np.random`
draws and 3 `random` draws regardless of the realized outcome, and the
distribution-family sequence of the branch draws is the same (normal, normal,
beta) in both arms — but only the realized branch's parameterizations are
drawn: a success records the `Normal(0,2), Normal(0,15), Beta(8,2)` calls and
no `Normal(5,3)` call, a failure records `Normal(5,3), Normal(25,15),
Beta(3,5)` and no `Normal(0,2)` call. -/
theorem c9_branch_draws :
    ∀ (s t : ℕ → ℚ) (i np py : ℕ),
      (mkRecord s t i np py).2.1 = np + 13 ∧
      (mkRecord s t i np py).2.2.1 = py + 3 ∧
      ((mkRecord s t i np py).1.success = 1 →
        (mkRecord s t i np py).2.2.2 = fixedTrace ++ successCalls ∧
        DistCall.normal 5 3 ∉ (mkRecord s t i np py).2.2.2) ∧
      ((mkRecord s t i np py).1.success = 0 →
        (mkRecord s t i np py).2.2.2 = fixedTrace ++ failureCalls ∧
        DistCall.normal 0 2 ∉ (mkRecord s t i np py).2.2.2) ∧
      successCalls.map distFamily = failureCalls.map distFamily ∧
      (mkRecord s t i np py).2.2.2.length = 13 := by
  intro s t i np py
  have htr := mkRecord_trace_eq s t i np py
  have hsucc := mkRecord_success_eq s t i np py
  refine ⟨rfl, rfl, ?_, ?_, rfl, ?_⟩
  · intro h1
    rw [hsucc] at h1
    rw [htr, if_pos h1]
    exact ⟨rfl, by decide⟩
  · intro h0
    rw [hsucc] at h0
    have hne : ¬ succFlag (t (py + 2)) (riskOf s np) = 1 := by
      rw [h0]; omega
    rw [htr, if_neg hne]
    exact ⟨rfl, by decide⟩
  · rw [htr]
    split_ifs <;> rfl

/-- Witness for the amended C9 on a successful concrete record. -/
theorem c9_branch_draws_witness :
    (mkRecord (fun _ : ℕ => (0 : ℚ)) (fun _ : ℕ => (0 : ℚ)) 0 0 0).1.success
        = 1 ∧
    ((mkRecord (fun _ : ℕ => (0 : ℚ)) (fun _ : ℕ => (0 : ℚ)) 0 0 0).2.2.2 =
        fixedTrace ++ successCalls ∧
      DistCall.normal 5 3 ∉
        (mkRecord (fun _ : ℕ => (0 : ℚ)) (fun _ : ℕ => (0 : ℚ)) 0 0
          0).2.2.2) := by
  have hs : (mkRecord (fun _ : ℕ => (0 : ℚ)) (fun _ : ℕ => (0 : ℚ)) 0 0
      0).1.success = 1 := by
    rw [mkRecord_success_eq]
    exact succFlag_of_nonpos _ le_rfl
  exact ⟨hs, (c9_branch_draws _ _ 0 0 0).2.2.1 hs⟩

/-- C10: within one process the two sources are seeded once at import, so a
second call continues the random streams exactly where the first call stopped
(after `13·n` `np.random` draws and `3·n` `random` draws); whenever the fresh
draws produce a different first budget, the second call's output differs from
the first — byte-identical determinism holds between freshly seeded runs
(claim C8), not between successive calls in one process. -/
theorem c10_sequential_calls :
    ∀ (s t : ℕ → ℚ) (n : ℤ), 1 ≤ n →
      (moduleRun s t n).1 = generateProjectData s t n ∧
      (moduleRun s t n).2 =
        (genAux s t n.toNat 0 (13 * n.toNat) (3 * n.toNat)).1 ∧
      ((mkRecord s t 0 0 0).1.budget_thousands ≠
          (mkRecord s t 0 (13 * n.toNat) (3 * n.toNat)).1.budget_thousands →
        (moduleRun s t n).1 ≠ (moduleRun s t n).2) := by
  intro s t n hn
  have hc := genAux_cursors s t n.toNat 0 0 0
  have h2 : (moduleRun s t n).2 =
      (genAux s t n.toNat 0 (13 * n.toNat) (3 * n.toNat)).1 := by
    show (genAux s t n.toNat 0 (genAux s t n.toNat 0 0 0).2.1
      (genAux s t n.toNat 0 0 0).2.2).1 = _
    rw [hc.1, hc.2]
    norm_num
  refine ⟨rfl, h2, ?_⟩
  intro hb heq
  have hk : 0 < n.toNat := by omega
  have g1 : (moduleRun s t n).1[0]? = some (mkRecord s t 0 0 0).1 := by
    show (genAux s t n.toNat 0 0 0).1[0]? = _
    have := genAux_getElem? s t n.toNat 0 0 0 0 hk
    simpa using this
  have g2 : (moduleRun s t n).2[0]? =
      some (mkRecord s t 0 (13 * n.toNat) (3 * n.toNat)).1 := by
    rw [h2]
    have := genAux_getElem? s t n.toNat 0 0 (13 * n.toNat) (3 * n.toNat) hk
    simpa using this
  rw [heq] at g1
  have := Option.some.inj (g1.symm.trans g2)
  exact hb (congrArg Record.budget_thousands this)

/-- Witness for C10: with the stream `k ↦ k + 10` the first call's first
budget is 100 while the second call's is 230, so the two calls' outputs
differ. -/
theorem c10_sequential_calls_witness :
    (1 : ℤ) ≤ 1 ∧
    ((mkRecord (fun k : ℕ => (k : ℚ) + 10) (fun _ : ℕ => (0 : ℚ)) 0 0
          0).1.budget_thousands ≠
      (mkRecord (fun k : ℕ => (k : ℚ) + 10) (fun _ : ℕ => (0 : ℚ)) 0
          (13 * (1 : ℤ).toNat) (3 * (1 : ℤ).toNat)).1.budget_thousands) ∧
    (moduleRun (fun k : ℕ => (k : ℚ) + 10) (fun _ : ℕ => (0 : ℚ)) 1).1 ≠
      (moduleRun (fun k : ℕ => (k : ℚ) + 10) (fun _ : ℕ => (0 : ℚ)) 1).2 := by
  have hb : (mkRecord (fun k : ℕ => (k : ℚ) + 10) (fun _ : ℕ => (0 : ℚ)) 0 0
        0).1.budget_thousands ≠
      (mkRecord (fun k : ℕ => (k : ℚ) + 10) (fun _ : ℕ => (0 : ℚ)) 0
        (13 * (1 : ℤ).toNat) (3 * (1 : ℤ).toNat)).1.budget_thousands := by
    rw [mkRecord_budget_eq, mkRecord_budget_eq]
    norm_num [round2, rhe, min_def, max_def]
  exact ⟨le_refl 1, hb,
    (c10_sequential_calls _ _ 1 (le_refl 1)).2.2 hb⟩
